import Mathlib

/-!
Shallow embedding of the filesystem utility layer in
`src/logic/FileSystem.cpp` (namespace `FS`), together with proofs about
its path utilities, sanitization, unique-name probing, atomic write,
recursive copy and shortcut creation.

Strings model `QString`, `List Nat` models `QByteArray`, and the
platform is Linux (`QDir::separator()` is the character slash).
Filesystem effects and fallible OS primitives are modelled by explicit
state passing over an association list of files plus boolean oracles
recording which primitive operations succeed.
-/

set_option autoImplicit false

namespace FSModel

/-- `(a ++ b).data = a.data ++ b.data` for our string reasoning. -/
theorem data_append (a b : String) : (a ++ b).data = a.data ++ b.data := by
  cases a; cases b; rfl

/-! ## Filename sanitization (`FS::RemoveInvalidFilenameChars`, lines 246-258) -/

/-- The fixed forbidden set, `QString badFilenameChars` at line 246. -/
def badFilenameChars : String := "\"\\/?<>:*|!"

/-- `FS::RemoveInvalidFilenameChars`: replace each character of the
forbidden set by `replaceWith`, in place, character by character. -/
def RemoveInvalidFilenameChars (string : String) (replaceWith : Char) : String :=
  String.mk (string.data.map (fun ch =>
    if badFilenameChars.data.contains ch then replaceWith else ch))

/-! ## Path canonicalization

`FS::PathCombine` calls `QDir::cleanPath` on the joined string.
`cleanPath` is Qt library code, modelled here by its documented
behaviour: split on slashes, drop empty and dot segments, let a
dot-dot segment cancel the preceding ordinary segment (kept at the
front of a relative path, dropped at the root of an absolute one),
and rejoin. -/

/-- Split a character list into slash-separated segments. -/
def splitSegsAux : List Char → List Char → List String
  | acc, [] => [String.mk acc.reverse]
  | acc, c :: rest =>
    if c = '/' then String.mk acc.reverse :: splitSegsAux [] rest
    else splitSegsAux (c :: acc) rest

/-- All slash-separated segments of a string. -/
def splitSegs (s : String) : List String := splitSegsAux [] s.data

/-- Join segments with single slashes. -/
def joinSegs : List String → String
  | [] => ""
  | [s] => s
  | s :: rest => s ++ "/" ++ joinSegs rest

/-- Segment normalization pass of `QDir::cleanPath`: `acc` holds the
already-processed segments in reverse order. -/
def cleanSegs (isAbs : Bool) : List String → List String → List String
  | acc, [] => acc.reverse
  | acc, s :: rest =>
    if s = "" ∨ s = "." then cleanSegs isAbs acc rest
    else if s = ".." then
      match acc with
      | [] => if isAbs then cleanSegs isAbs [] rest else cleanSegs isAbs [".."] rest
      | a :: as =>
        if a = ".." then cleanSegs isAbs (s :: acc) rest
        else cleanSegs isAbs as rest
    else cleanSegs isAbs (s :: acc) rest

/-- Model of `QDir::cleanPath` on Linux paths. -/
def cleanPath (p : String) : String :=
  let isAbs : Bool := match p.data with
    | [] => false
    | c :: _ => c = '/'
  let segs := cleanSegs isAbs [] (splitSegs p)
  let body := joinSegs segs
  if isAbs then "/" ++ body
  else if body = "" then "." else body

/-! ## `FS::PathCombine` (lines 185-192) -/

/-- `FS::PathCombine`: empty operands are returned unchanged, otherwise
the two paths are joined with the separator and canonicalized. -/
def PathCombine (path1 path2 : String) : String :=
  if path1.length = 0 then path2
  else if path2.length = 0 then path1
  else cleanPath (path1 ++ "/" ++ path2)

/-! ## `FS::NormalizePath` (lines 228-244)

The current working directory (the result of `QDir::currentPath()`,
always an absolute canonical path) is passed explicitly as `cwd`.
`QString::startsWith` is a plain string-prefix test. -/

/-- `leadsList pre l` decides whether `pre` is an initial run of `l`. -/
def leadsList : List Char → List Char → Bool
  | [], _ => true
  | _ :: _, [] => false
  | a :: as, b :: bs => a == b && leadsList as bs

/-- Model of `QString::startsWith`: `qStartsWith s t` means `s` begins
with `t` as a string. -/
def qStartsWith (s t : String) : Bool := leadsList t.data s.data

/-- Model of `QDir(path).absolutePath()`: absolute paths are cleaned,
relative ones are resolved against the working directory and cleaned. -/
def absolutePathOf (cwd p : String) : String :=
  if qStartsWith p "/" then cleanPath p else cleanPath (cwd ++ "/" ++ p)

/-- Nonempty slash-separated segments of a path. -/
def segsOf (s : String) : List String := (splitSegs s).filter (fun seg => seg ≠ "")

/-- Drop the common leading segments of two segment lists. -/
def dropCommon : List String → List String → List String × List String
  | a :: as, b :: bs =>
    if a = b then dropCommon as bs else (a :: as, b :: bs)
  | as, bs => (as, bs)

/-- Model of `QDir(dir).relativeFilePath(file)` for canonical absolute
`dir` and `file`: strip the common leading segments, go up once per
remaining segment of `dir`, then down into the remainder of `file`. -/
def relativeFilePath (dir file : String) : String :=
  let r := dropCommon (segsOf dir) (segsOf file)
  let parts := List.replicate r.1.length ".." ++ r.2
  if parts.isEmpty then "." else joinSegs parts

/-- `FS::NormalizePath`: paths whose absolute form starts with the
working directory string are relativized, all others are returned in
absolute form. -/
def NormalizePath (cwd p : String) : String :=
  let currentAbsolute := cwd
  let newAbsolute := absolutePathOf cwd p
  if qStartsWith newAbsolute currentAbsolute then
    relativeFilePath currentAbsolute newAbsolute
  else newAbsolute

/-- Specification-side notion used by the claim about `NormalizePath`:
`q` lies under the directory `d` when it equals `d` or extends it past
a separator. -/
def liesUnder (d q : String) : Prop :=
  q = d ∨ qStartsWith q (d ++ "/") = true

instance liesUnderDecidable (d q : String) : Decidable (liesUnder d q) := by
  unfold liesUnder
  infer_instance

/-! ## `FS::DirNameFromString` (lines 260-282)

`QFileInfo(...).exists()` is modelled by the oracle `ex`. -/

/-- The name probed at step `num` of the `do` loop: the sanitized base
for `num = 0`, the base with the decimal suffix `num` afterwards. -/
def probeName (base : String) (num : Nat) : String :=
  if num = 0 then base else base ++ toString num

/-- The `do … while` loop of `FS::DirNameFromString`, one call per
iteration, entered with the current value of `num`. -/
def dirNameLoop (ex : String → Bool) (inDir base : String) (num : Nat) : String :=
  let dirName := probeName base num
  if h : num > 9000 then ""
  else if ex (PathCombine inDir dirName) then dirNameLoop ex inDir base (num + 1)
  else dirName
  termination_by 9001 - num
  decreasing_by omega

/-- `FS::DirNameFromString`: sanitize with a dash, then probe. -/
def DirNameFromString (ex : String → Bool) (string inDir : String) : String :=
  dirNameLoop ex inDir (RemoveInvalidFilenameChars string '-') 0

/-! ## File store

`FsState` is the visible file content of the filesystem: an association
list from paths to byte lists, earlier entries shadowing later ones. -/

/-- Visible files: path to byte-list content. -/
def FsState : Type := List (String × List Nat)

/-- The content a reader of path `p` observes, `none` when no file. -/
def lookupFile : FsState → String → Option (List Nat)
  | [], _ => none
  | (q, d) :: rest, p => if p = q then some d else lookupFile rest p

/-- Create or replace the file at `p`. -/
def setFile (st : FsState) (p : String) (d : List Nat) : FsState := (p, d) :: st

/-- Remove the file at `p`. -/
def removeFile : FsState → String → FsState
  | [], _ => []
  | (q, d) :: rest, p =>
    if q = p then removeFile rest p else (q, d) :: removeFile rest p

/-! ## `FS::write` (lines 21-40) and `FS::read` (lines 42-59)

`FS::write` goes through `QSaveFile`: opening creates a distinct
temporary file next to the destination, `write` fills the temporary,
and only `commit` renames it over the destination; any earlier failure
throws and discards the temporary.  The oracles in `WriteEnv` record
whether `QDir::mkpath`, `QSaveFile::open`, the full-size `write` and
`commit` succeed. -/

/-- Success of each fallible primitive used by `FS::write`. -/
structure WriteEnv where
  mkdirOk : Bool
  openOk : Bool
  writeOk : Bool
  commitOk : Bool

/-- The `QSaveFile` temporary path for destination `p`. -/
def tmpName (p : String) : String := p ++ ".tmp"

/-- Result of one `FS::write` call: whether it returned normally
(rather than throwing), the final file store, and the intermediate
stores after each primitive step, in order, final store last. -/
structure WriteOutcome where
  ok : Bool
  final : FsState
  trace : List FsState

/-- `FS::write`: ensure the parent directory, open the save file, write
the buffer, commit.  Each failing step throws, leaving the store as the
trace records. -/
def fswrite (env : WriteEnv) (st : FsState) (p : String) (d : List Nat) :
    WriteOutcome :=
  if !env.mkdirOk then ⟨false, st, [st]⟩
  else if !env.openOk then ⟨false, st, [st]⟩
  else
    let st1 := setFile st (tmpName p) []
    if !env.writeOk then
      let st2 := removeFile st1 (tmpName p)
      ⟨false, st2, [st1, st2]⟩
    else
      let st2 := setFile st1 (tmpName p) d
      if !env.commitOk then
        let st3 := removeFile st2 (tmpName p)
        ⟨false, st3, [st1, st2, st3]⟩
      else
        let st3 := setFile (removeFile st2 (tmpName p)) p d
        ⟨true, st3, [st1, st2, st3]⟩

/-- `FS::read`: open the file (throws when absent), size the buffer to
the file, read; a short read throws.  `none` models the throw. -/
def fsread (st : FsState) (p : String) : Option (List Nat) :=
  match lookupFile st p with
  | none => none
  | some content =>
    let size := content.length
    let ret := content.length
    if ret ≠ size then none else some content

/-! ## `FS::copyPath` (lines 79-123)

The object at the source path as the OS resolves it: a file, a
directory with its named entries, or an unknown object (including a
nonexistent path, for which `QDir::exists()` is false and `QFileInfo`
reports neither file nor directory).  Each directory entry carries its
name, its `QFileInfo::symLinkTarget()` when `isSymLink()` holds, and
the object the OS reports after following links. -/

mutual
inductive FsObj : Type where
  | file : FsObj
  | other : FsObj
  | dir : EntryList → FsObj

inductive EntryList : Type where
  | nil : EntryList
  | cons (name : String) (linkTarget : Option String) (obj : FsObj)
      (rest : EntryList) : EntryList
end

/-- Success of each fallible primitive used by `FS::copyPath`. -/
structure CopyEnv where
  mkpathOk : String → Bool
  linkOk : String → String → Bool
  copyOk : String → String → Bool

/-- Primitive filesystem operations attempted during a copy, in order. -/
inductive CopyAct : Type where
  | mkpath (dst : String)
  | link (target dst : String)
  | copyFile (src dst : String)
  | errUnknown (src : String)
deriving DecidableEq

mutual
/-- `FS::copyPath` on Linux: fail when the source is not an existing
directory, ensure the destination tree, then fold `OK &= …` over the
entries; returns the flag together with the attempted operations. -/
def copyPath (env : CopyEnv) (follow : Bool) (src dst : String) :
    FsObj → Bool × List CopyAct
  | FsObj.file => (false, [])
  | FsObj.other => (false, [])
  | FsObj.dir es =>
    if env.mkpathOk dst then
      let r := copyEntries env follow src dst es
      (r.1, CopyAct.mkpath dst :: r.2)
    else (false, [CopyAct.mkpath dst])

/-- The `foreach` body of `FS::copyPath`: symlinks are re-linked when
not following, directories recurse, files copy, anything else fails;
the accumulator is `&&`-ed with every entry's result. -/
def copyEntries (env : CopyEnv) (follow : Bool) (src dst : String) :
    EntryList → Bool × List CopyAct
  | EntryList.nil => (true, [])
  | EntryList.cons name tgt obj rest =>
    let inner_src := src ++ "/" ++ name
    let inner_dst := dst ++ "/" ++ name
    let r1 : Bool × List CopyAct :=
      match follow, tgt with
      | false, some t => (env.linkOk t inner_dst, [CopyAct.link t inner_dst])
      | _, _ =>
        match obj with
        | FsObj.dir es2 => copyPath env follow inner_src inner_dst (FsObj.dir es2)
        | FsObj.file => (env.copyOk inner_src inner_dst,
            [CopyAct.copyFile inner_src inner_dst])
        | FsObj.other => (false, [CopyAct.errUnknown inner_src])
    let r2 := copyEntries env follow src dst rest
    (r1.1 && r2.1, r1.2 ++ r2.2)
end

/-- Success of the single operation `FS::copyPath` performs for one
directory entry, recomputed independently of any sibling. -/
def entrySucc (env : CopyEnv) (follow : Bool) (src dst : String)
    (name : String) (tgt : Option String) (obj : FsObj) : Bool :=
  match follow, tgt with
  | false, some t => env.linkOk t (dst ++ "/" ++ name)
  | _, _ =>
    match obj with
    | FsObj.dir _ => (copyPath env follow (src ++ "/" ++ name) (dst ++ "/" ++ name) obj).1
    | FsObj.file => env.copyOk (src ++ "/" ++ name) (dst ++ "/" ++ name)
    | FsObj.other => false

/-- The operations attempted for one directory entry, recomputed
independently of any sibling. -/
def entryActs (env : CopyEnv) (follow : Bool) (src dst : String)
    (name : String) (tgt : Option String) (obj : FsObj) : List CopyAct :=
  match follow, tgt with
  | false, some t => [CopyAct.link t (dst ++ "/" ++ name)]
  | _, _ =>
    match obj with
    | FsObj.dir _ => (copyPath env follow (src ++ "/" ++ name) (dst ++ "/" ++ name) obj).2
    | FsObj.file => [CopyAct.copyFile (src ++ "/" ++ name) (dst ++ "/" ++ name)]
    | FsObj.other => [CopyAct.errUnknown (src ++ "/" ++ name)]

/-- The independent success flags of all entries, in order. -/
def entsSuccList (env : CopyEnv) (follow : Bool) (src dst : String) :
    EntryList → List Bool
  | EntryList.nil => []
  | EntryList.cons name tgt obj rest =>
    entrySucc env follow src dst name tgt obj ::
      entsSuccList env follow src dst rest

/-- The independent action blocks of all entries, one block per entry,
in order. -/
def entsActsList (env : CopyEnv) (follow : Bool) (src dst : String) :
    EntryList → List (List CopyAct)
  | EntryList.nil => []
  | EntryList.cons name tgt obj rest =>
    entryActs env follow src dst name tgt obj ::
      entsActsList env follow src dst rest

/-! ## `FS::createShortCut`, Linux branch (lines 375-404)

The result of `QFile::open` is recorded by the oracle `openOk` but the
code never inspects it; the text stream writes reach the store only
when the open succeeded. -/

/-- The apostrophe used to quote shortcut arguments. -/
def quoteCh : String := String.singleton (Char.ofNat 39)

/-- `args.join("' '")`. -/
def joinQuoted : List String → String
  | [] => ""
  | [a] => a
  | a :: rest => a ++ quoteCh ++ " " ++ quoteCh ++ joinQuoted rest

/-- Bytes of the text written through the stream. -/
def strBytes (s : String) : List Nat := s.data.map Char.toNat

/-- The desktop-entry text streamed by the Linux branch. -/
def desktopEntryText (dest : String) (args : List String) (name icon : String) :
    String :=
  let argstring :=
    match args with
    | [] => ""
    | _ => " " ++ quoteCh ++ joinQuoted args ++ quoteCh
  "[Desktop Entry]" ++ "\n" ++ "Type=Application" ++ "\n" ++
  "TryExec=" ++ dest ++ "\n" ++
  "Exec=" ++ dest ++ argstring ++ "\n" ++
  "Name=" ++ name ++ "\n" ++
  "Icon=" ++ icon ++ "\n"

/-- `FS::createShortCut` on Linux: combine the location with
`name + ".desktop"`, open, stream the descriptor, return `true`. -/
def createShortCut (openOk : Bool) (st : FsState) (location dest : String)
    (args : List String) (name icon : String) : Bool × FsState :=
  let loc := PathCombine location (name ++ ".desktop")
  if openOk then
    (true, setFile st loc (strBytes (desktopEntryText dest args name icon)))
  else (true, st)

/-! ## Concrete fixtures used to instantiate the theorems -/

/-- Existence oracle with exactly one used name, `dir/foo`. -/
def probeExists (t : String) : Bool := t == "dir/foo"

/-- Write environment in which every primitive succeeds. -/
def allOkEnv : WriteEnv := ⟨true, true, true, true⟩

/-- Copy environment in which directory creation and linking succeed
but every file copy fails. -/
def copyEnvW : CopyEnv := ⟨fun _ => true, fun _ _ => true, fun _ _ => false⟩

/-- Three entries: a plain file, an unknown object, a symlink. -/
def entsW : EntryList :=
  EntryList.cons "x" none FsObj.file
    (EntryList.cons "u" none FsObj.other
      (EntryList.cons "s" (some "t") FsObj.file EntryList.nil))

/-! ## Helper lemmas -/

theorem lookupFile_set_self (st : FsState) (p : String) (d : List Nat) :
    lookupFile (setFile st p d) p = some d := by
  simp [setFile, lookupFile]

theorem lookupFile_set_ne (st : FsState) (p q : String) (d : List Nat)
    (h : p ≠ q) : lookupFile (setFile st q d) p = lookupFile st p := by
  simp [setFile, lookupFile, h]

theorem lookupFile_remove_ne (st : FsState) (p q : String) (h : p ≠ q) :
    lookupFile (removeFile st q) p = lookupFile st p := by
  induction st with
  | nil => rfl
  | cons e rest ih =>
    obtain ⟨r, d⟩ := e
    by_cases hr : r = q
    · subst hr
      simp [removeFile, lookupFile, ih, h]
    · simp only [removeFile, hr, if_false, lookupFile]
      by_cases hp : p = r <;> simp [hp, ih]

theorem tmpName_ne (p : String) : p ≠ tmpName p := by
  intro h
  have hd : p.data = p.data ++ (".tmp" : String).data := by
    calc p.data = (tmpName p).data := congrArg String.data h
    _ = p.data ++ (".tmp" : String).data := data_append p ".tmp"
  have hlen := congrArg List.length hd
  rw [List.length_append] at hlen
  have h4 : (".tmp" : String).data.length = 4 := rfl
  omega

theorem leadsList_refl (l : List Char) : leadsList l l = true := by
  induction l with
  | nil => rfl
  | cons a as ih => simp [leadsList, ih]

theorem leadsList_append (xs ys zs : List Char)
    (h : leadsList (xs ++ ys) zs = true) : leadsList xs zs = true := by
  induction xs generalizing zs with
  | nil => rfl
  | cons a as ih =>
    cases zs with
    | nil => simp [leadsList] at h
    | cons b bs =>
      simp only [List.cons_append, leadsList, Bool.and_eq_true] at h ⊢
      exact ⟨h.1, ih bs h.2⟩

theorem liesUnder_qStartsWith (d q : String) (h : liesUnder d q) :
    qStartsWith q d = true := by
  rcases h with h | h
  · subst h
    exact leadsList_refl _
  · unfold qStartsWith at h ⊢
    rw [data_append] at h
    exact leadsList_append _ _ _ h

theorem dirNameLoop_unfold (ex : String → Bool) (inDir base : String) (num : Nat) :
    dirNameLoop ex inDir base num =
      if num > 9000 then ""
      else if ex (PathCombine inDir (probeName base num)) then
        dirNameLoop ex inDir base (num + 1)
      else probeName base num := by
  rw [dirNameLoop]
  rfl

theorem dirNameLoop_all (ex : String → Bool) (inDir base : String) :
    ∀ k num, 9001 ≤ num + k →
      (∀ i, num ≤ i → i ≤ 9000 →
        ex (PathCombine inDir (probeName base i)) = true) →
      dirNameLoop ex inDir base num = ""
  | 0, num, hk, _ => by
    rw [dirNameLoop_unfold]
    have hgt : num > 9000 := by omega
    simp [hgt]
  | k + 1, num, hk, hall => by
    rw [dirNameLoop_unfold]
    by_cases h : num > 9000
    · simp [h]
    · have he := hall num le_rfl (by omega)
      simp only [h, if_false, he, if_true]
      exact dirNameLoop_all ex inDir base k (num + 1) (by omega)
        (fun i hi h2 => hall i (by omega) h2)

theorem dirNameLoop_found (ex : String → Bool) (inDir base : String) :
    ∀ k num j, 9001 ≤ num + k → num ≤ j → j ≤ 9000 →
      ex (PathCombine inDir (probeName base j)) = false →
      (∀ i, num ≤ i → i < j →
        ex (PathCombine inDir (probeName base i)) = true) →
      dirNameLoop ex inDir base num = probeName base j
  | 0, num, j, hk, hnj, hj9, _, _ => by omega
  | k + 1, num, j, hk, hnj, hj9, hex, hall => by
    rw [dirNameLoop_unfold]
    have h : ¬ num > 9000 := by omega
    by_cases hn : num = j
    · subst hn
      simp [h, hex]
    · have he := hall num le_rfl (by omega)
      simp only [h, if_false, he, if_true]
      exact dirNameLoop_found ex inDir base k (num + 1) j (by omega) (by omega)
        hj9 hex (fun i hi h2 => hall i (by omega) h2)

theorem copyEntries_eq (env : CopyEnv) (follow : Bool) (src dst : String) :
    ∀ es, copyEntries env follow src dst es =
      ((entsSuccList env follow src dst es).all (fun b => b),
       (entsActsList env follow src dst es).flatten)
  | EntryList.nil => rfl
  | EntryList.cons name tgt obj rest => by
    have ih := copyEntries_eq env follow src dst rest
    cases follow <;> rcases tgt with _ | t <;> cases obj <;>
      simp [copyEntries, entsSuccList, entsActsList, entrySucc, entryActs, ih,
        Bool.and_assoc]

theorem entryActs_ne_nil (env : CopyEnv) (follow : Bool) (src dst : String)
    (name : String) (tgt : Option String) (obj : FsObj) :
    entryActs env follow src dst name tgt obj ≠ [] := by
  cases follow <;> rcases tgt with _ | t <;> cases obj <;>
      simp [entryActs, copyPath] <;>
    by_cases hmk : env.mkpathOk (dst ++ "/" ++ name) = true <;> simp [hmk]

theorem entsActsList_ne_nil (env : CopyEnv) (follow : Bool) (src dst : String) :
    ∀ es l, l ∈ entsActsList env follow src dst es → l ≠ []
  | EntryList.nil => by simp [entsActsList]
  | EntryList.cons name tgt obj rest => by
    intro l hl
    simp only [entsActsList, List.mem_cons] at hl
    rcases hl with rfl | hl
    · exact entryActs_ne_nil env follow src dst name tgt obj
    · exact entsActsList_ne_nil env follow src dst rest l hl

/-! ## Claim theorems -/

/-- C1: if `FS::write(p, d)` returns successfully the file at `p`
contains exactly the bytes of `d`; if it throws, the destination is
left in its prior state; and in every intermediate visible state a
reader of `p` sees either the prior content or the full new content,
never a partial write. -/
theorem claim_C1_write_atomic (env : WriteEnv) (st : FsState) (p : String)
    (d : List Nat) :
    ((fswrite env st p d).ok = true →
      lookupFile (fswrite env st p d).final p = some d) ∧
    ((fswrite env st p d).ok = false →
      lookupFile (fswrite env st p d).final p = lookupFile st p) ∧
    (∀ s, s ∈ (fswrite env st p d).trace →
      lookupFile s p = lookupFile st p ∨ lookupFile s p = some d) := by
  obtain ⟨mk, op, wr, cm⟩ := env
  have hne := tmpName_ne p
  have hset : ∀ (x : FsState) (e : List Nat),
      lookupFile (setFile x (tmpName p) e) p = lookupFile x p :=
    fun x e => lookupFile_set_ne x p (tmpName p) e hne
  have hrem : ∀ x : FsState,
      lookupFile (removeFile x (tmpName p)) p = lookupFile x p :=
    fun x => lookupFile_remove_ne x p (tmpName p) hne
  cases mk <;> cases op <;> cases wr <;> cases cm <;>
    simp [fswrite, hset, hrem, lookupFile_set_self]

/-- C1 witness: with every primitive succeeding, writing `[7]` to `f`
makes a reader of `f` see exactly `[7]`. -/
theorem claim_C1_witness :
    lookupFile (fswrite allOkEnv [] "f" [7]).final "f" = some [7] :=
  (claim_C1_write_atomic allOkEnv [] "f" [7]).1 rfl

/-- C2: a successful `FS::write(p, d)` followed by `FS::read(p)`
returns exactly `d`. -/
theorem claim_C2_roundtrip (env : WriteEnv) (st : FsState) (p : String)
    (d : List Nat) (h : (fswrite env st p d).ok = true) :
    fsread (fswrite env st p d).final p = some d := by
  obtain ⟨mk, op, wr, cm⟩ := env
  cases mk <;> cases op <;> cases wr <;> cases cm <;>
    simp [fswrite] at h ⊢ <;>
    simp [fsread, lookupFile_set_self]

/-- C2 witness: the round trip holds for the empty buffer. -/
theorem claim_C2_witness :
    fsread (fswrite allOkEnv [] "f" []).final "f" = some [] :=
  claim_C2_roundtrip allOkEnv [] "f" [] rfl

/-- C3: on an existing source directory whose destination tree can be
created, `FS::copyPath` returns the logical AND of the independent
success of every per-entry operation, its action log contains one
nonempty block per entry (so a failing entry never aborts the
traversal), and an entry of unknown kind contributes failure
unconditionally. -/
theorem claim_C3_copy_and (env : CopyEnv) (follow : Bool) (src dst : String)
    (es : EntryList) (hmk : env.mkpathOk dst = true) :
    (copyPath env follow src dst (FsObj.dir es)).1 =
      (entsSuccList env follow src dst es).all (fun b => b) ∧
    (copyPath env follow src dst (FsObj.dir es)).2 =
      CopyAct.mkpath dst :: (entsActsList env follow src dst es).flatten ∧
    (∀ l, l ∈ entsActsList env follow src dst es → l ≠ []) ∧
    (∀ name, entrySucc env follow src dst name none FsObj.other = false) := by
  have hce := copyEntries_eq env follow src dst es
  refine ⟨?_, ?_, entsActsList_ne_nil env follow src dst es, ?_⟩
  · simp [copyPath, hmk, hce]
  · simp [copyPath, hmk, hce]
  · intro name
    cases follow <;> rfl

/-- C3 witness: with file copies failing, a directory holding a file,
an unknown object and a symlink yields the AND of the three
per-entry results. -/
theorem claim_C3_witness :
    (copyPath copyEnvW false "s" "d" (FsObj.dir entsW)).1 =
      (entsSuccList copyEnvW false "s" "d" entsW).all (fun b => b) :=
  (claim_C3_copy_and copyEnvW false "s" "d" entsW rfl).1

/-- C4: `FS::copyPath` fails on a source that is not an existing
directory, attempting no operation at all (in particular not creating
the destination), and fails when the destination tree cannot be
created. -/
theorem claim_C4_copy_missing (env : CopyEnv) (follow : Bool) (src dst : String) :
    (∀ obj : FsObj, (∀ es, obj ≠ FsObj.dir es) →
      copyPath env follow src dst obj = (false, [])) ∧
    (∀ es, env.mkpathOk dst = false →
      copyPath env follow src dst (FsObj.dir es) = (false, [CopyAct.mkpath dst])) := by
  constructor
  · intro obj hobj
    cases obj with
    | file => rfl
    | other => rfl
    | dir es => exact absurd rfl (hobj es)
  · intro es hmk
    simp [copyPath, hmk]

/-- C4 witness: copying from an unknown source object fails and
performs no action. -/
theorem claim_C4_witness :
    copyPath copyEnvW false "s" "d" FsObj.other = (false, []) :=
  (claim_C4_copy_missing copyEnvW false "s" "d").1 FsObj.other (fun es => by simp)

/-- C5: `FS::DirNameFromString` sanitizes the base name and probes
`inDir/base`, `inDir/base1`, `inDir/base2`, … returning the first name
whose path does not exist; when every probed name up to suffix 9000
exists it returns the empty string. -/
theorem claim_C5_dirname (ex : String → Bool) (s inDir : String) :
    ((∀ i, i ≤ 9000 →
        ex (PathCombine inDir (probeName (RemoveInvalidFilenameChars s '-') i)) =
          true) →
      DirNameFromString ex s inDir = "") ∧
    (∀ j, j ≤ 9000 →
      ex (PathCombine inDir (probeName (RemoveInvalidFilenameChars s '-') j)) =
        false →
      (∀ i, i < j →
        ex (PathCombine inDir (probeName (RemoveInvalidFilenameChars s '-') i)) =
          true) →
      DirNameFromString ex s inDir =
        probeName (RemoveInvalidFilenameChars s '-') j) := by
  constructor
  · intro hall
    exact dirNameLoop_all ex inDir _ 9001 0 (by omega) (fun i _ h2 => hall i h2)
  · intro j hj hex hall
    exact dirNameLoop_found ex inDir _ 9001 0 j (by omega) (Nat.zero_le _) hj hex
      (fun i _ h2 => hall i h2)

/-- C5 witness: when only `dir/foo` is taken, the next probe `foo1` is
returned. -/
theorem claim_C5_witness : DirNameFromString probeExists "foo" "dir" = "foo1" := by
  have h := (claim_C5_dirname probeExists "foo" "dir").2 1 (by omega) (by decide)
    (fun i hi => by
      have hz : i = 0 := by omega
      subst hz
      decide)
  rw [h]
  decide

/-- C6: `FS::RemoveInvalidFilenameChars` keeps the length of its input
and acts per position, replacing exactly the characters of the
forbidden set by the replacement character and leaving every other
character unchanged. -/
theorem claim_C6_sanitize (s : String) (c : Char) (i : Nat) :
    (RemoveInvalidFilenameChars s c).length = s.length ∧
    (RemoveInvalidFilenameChars s c).data.get? i =
      (s.data.get? i).map
        (fun ch => if badFilenameChars.data.contains ch then c else ch) := by
  constructor
  · have h1 : (RemoveInvalidFilenameChars s c).length =
        (s.data.map fun ch =>
          if badFilenameChars.data.contains ch then c else ch).length := rfl
    rw [h1, List.length_map]
    rfl
  · simp [RemoveInvalidFilenameChars, List.get?_map]

/-- C7: `FS::PathCombine` returns the other operand unchanged when one
operand is empty, and canonicalizes the joined path otherwise, as in
`PathCombine "a/b/" "../c" = "a/c"`. -/
theorem claim_C7_pathcombine :
    (∀ a : String, PathCombine a "" = a ∧ PathCombine "" a = a) ∧
    PathCombine "a/b/" "../c" = "a/c" := by
  refine ⟨fun a => ⟨?_, ?_⟩, by decide⟩
  · unfold PathCombine
    by_cases h : a.length = 0
    · simp only [h, if_true]
      obtain ⟨l⟩ := a
      have hl : l = [] := List.length_eq_zero.mp h
      subst hl
      rfl
    · simp [h]
  · unfold PathCombine
    simp

/-- C8 counterexample: `/a/bc` does not lie under the working
directory `/a/b`, yet `NormalizePath` does not return its absolute
form (it returns `../bc`), so relativization is not governed by
directory containment. -/
theorem claim_C8_counterexample :
    ¬ liesUnder "/a/b" (absolutePathOf "/a/b" "/a/bc") ∧
    NormalizePath "/a/b" "/a/bc" ≠ absolutePathOf "/a/b" "/a/bc" := by
  decide

/-- C8 (amended): `FS::NormalizePath` relativizes exactly when the
absolute form of the path starts, as a string, with the working
directory path; every path lying under the working directory satisfies
that test (but some paths merely sharing a string prefix do too). -/
theorem claim_C8_normalize (cwd p : String) :
    (liesUnder cwd (absolutePathOf cwd p) →
      NormalizePath cwd p = relativeFilePath cwd (absolutePathOf cwd p)) ∧
    (qStartsWith (absolutePathOf cwd p) cwd = true →
      NormalizePath cwd p = relativeFilePath cwd (absolutePathOf cwd p)) ∧
    (qStartsWith (absolutePathOf cwd p) cwd = false →
      NormalizePath cwd p = absolutePathOf cwd p) := by
  refine ⟨fun h => ?_, fun h => ?_, fun h => ?_⟩
  · have hs := liesUnder_qStartsWith cwd (absolutePathOf cwd p) h
    unfold NormalizePath
    simp [hs]
  · unfold NormalizePath
    simp [h]
  · unfold NormalizePath
    simp [h]

/-- C8 witness: a path under the working directory is relativized. -/
theorem claim_C8_witness :
    NormalizePath "/a/b" "/a/b/c" =
      relativeFilePath "/a/b" (absolutePathOf "/a/b" "/a/b/c") :=
  (claim_C8_normalize "/a/b" "/a/b/c").1 (by decide)

/-- C9: the Linux branch of `FS::createShortCut` returns `true` for
every input, and when the descriptor file cannot be opened it still
returns `true` while writing nothing. -/
theorem claim_C9_shortcut_true (openOk : Bool) (st : FsState)
    (location dest : String) (args : List String) (name icon : String) :
    (createShortCut openOk st location dest args name icon).1 = true ∧
    (openOk = false →
      (createShortCut openOk st location dest args name icon).2 = st) := by
  cases openOk <;> simp [createShortCut]

/-- C9 witness: with the open failing, the store is untouched and the
call still returned `true`. -/
theorem claim_C9_witness :
    (createShortCut false [] "loc" "dest" [] "n" "i").2 = [] :=
  (claim_C9_shortcut_true false [] "loc" "dest" [] "n" "i").2 rfl

/-- C10: when the replacement character is not itself forbidden,
`FS::RemoveInvalidFilenameChars` is idempotent. -/
theorem claim_C10_idempotent (s : String) (c : Char)
    (h : badFilenameChars.data.contains c = false) :
    RemoveInvalidFilenameChars (RemoveInvalidFilenameChars s c) c =
      RemoveInvalidFilenameChars s c := by
  unfold RemoveInvalidFilenameChars
  show String.mk (List.map _ (List.map _ s.data)) = _
  rw [List.map_map]
  refine congrArg String.mk (List.map_congr_left ?_)
  intro a _
  have hc : c ∉ badFilenameChars.data := by simpa using h
  by_cases hb : a ∈ badFilenameChars.data <;> simp [Function.comp, hb, hc]

/-- C10 witness: sanitizing with a dash twice equals sanitizing once. -/
theorem claim_C10_witness :
    RemoveInvalidFilenameChars (RemoveInvalidFilenameChars "a?b" '-') '-' =
      RemoveInvalidFilenameChars "a?b" '-' :=
  claim_C10_idempotent "a?b" '-' (by decide)

end FSModel
